import Mathlib

/-!
Verification of the Panoramica "Revenue Architect" decision core.

The definitions below are a shallow embedding of the deterministic parts of
the repository: the profile merge loop, the confidence scorer `calcConf`, the
phase state machine (`canAdvancePhase` / `doAdvance`), the option sanitizer,
the stage resolver `resolveStage`, the feasibility guardrail
`runFeasibilityChecks`, and the benchmark chart/dashboard normalization
(`buildChartData`, `healthScore`).

JavaScript strings are Lean `String`s, numbers are `Nat` / `ℤ` / `ℚ`
(`parseInt` / `parseFloat` of unusable text, i.e. NaN, is `Option.none`),
and a profile is a finite map `String → Option FieldVal` (`none` models a
field name the profile does not own, so `hasOwnProperty` fails).
String primitives (`trim`, `toLowerCase`, `includes`) are re-implemented
over character lists so that all definitions evaluate by kernel reduction.
-/

namespace Panoramica

/-- JS `String.prototype.trim()`: strip whitespace from both ends. -/
def jsTrim (s : String) : String :=
  String.mk (((s.toList.dropWhile Char.isWhitespace).reverse.dropWhile Char.isWhitespace).reverse)

/-- JS `String.prototype.toLowerCase()` (ASCII case mapping). -/
def jsToLower (s : String) : String :=
  String.mk (s.toList.map Char.toLower)

/-- JS `hay.includes(pat)`: substring test. -/
def jsIncludes (hay pat : String) : Bool :=
  hay.toList.tails.any (fun t => pat.toList.isPrefixOf t)

/-- A profile field value: the profile maps each field name either to a
scalar string or to a list of strings (`diagnosedProblems`, `rootCauses`,
`validatedProblems`). -/
inductive FieldVal where
  | scalar (s : String)
  | lst (l : List String)
deriving DecidableEq, Repr

/-- A profile: `none` means the profile object does not have the key
(`hasOwnProperty` is false). -/
abbrev Profile : Type := String → Option FieldVal

/-- A candidate value in an LLM `profile_updates` map: JS `null`/`undefined`,
a string, or an array of strings. -/
inductive UpdVal where
  | nullv
  | str (s : String)
  | arr (l : List String)
deriving DecidableEq, Repr

/-- Worker for `setDedup`: `seen` is the set of already-emitted elements. -/
def dedupGo (seen : List String) : List String → List String
  | [] => []
  | x :: xs => if seen.contains x then dedupGo seen xs else x :: dedupGo (x :: seen) xs

/-- Insertion-order deduplication, as performed by `[...new Set(list)]` in
the merge loop: keeps the first occurrence of each element. -/
def setDedup (l : List String) : List String := dedupGo [] l

/-- JS `items.filter(i => i && String(i).trim())`: items whose trimmed form is
empty are discarded (for a string `i`, JS truthiness of `i` and of
`i.trim()` both reduce to the trimmed form being nonempty). -/
def filterItems (l : List String) : List String :=
  l.filter (fun i => jsTrim i != "")

/-- One iteration of the `profile_updates` merge loop of the chat handler
(src/auth-check.js lines 674-684), for a field the profile owns:

* `v == null` → the entry is skipped;
* list-typed field → `[...new Set([...cur, ...items.filter(i => i && String(i).trim())])]`
  where `items` is `v` if it is an array and `[v]` otherwise;
* scalar-typed field → overwritten with `v.trim()` when `v` is a nonempty
  (after trim) string, otherwise left unchanged. -/
def mergeField (cur : FieldVal) (v : UpdVal) : FieldVal :=
  match v with
  | .nullv => cur
  | .str s =>
    match cur with
    | .lst xs => .lst (setDedup (xs ++ filterItems [s]))
    | .scalar old => if jsTrim s != "" then .scalar (jsTrim s) else .scalar old
  | .arr l =>
    match cur with
    | .lst xs => .lst (setDedup (xs ++ filterItems l))
    | .scalar old => .scalar old

/-- Apply one `profile_updates` entry: unknown field names
(`!S.profile.hasOwnProperty(k)`) are skipped silently. -/
def applyUpdate (p : Profile) (k : String) (v : UpdVal) : Profile :=
  fun k' =>
    if k' = k then
      match p k with
      | none => none
      | some c => some (mergeField c v)
    else p k'

/-- The whole merge loop: fold the entries of the update map (in object
insertion order) over the profile. -/
def applyUpdates (p : Profile) (us : List (String × UpdVal)) : Profile :=
  us.foldl (fun acc kv => applyUpdate acc kv.1 kv.2) p

/-! ### Confidence scorer (src/auth-check.js `calcConf`, lines 780-801) -/

/-- The profile "present" test of §3: a scalar is present iff nonempty after
trimming (`v && v.trim() !== ''`), a list iff nonempty
(`Array.isArray(v) ? v.length > 0 : ...`); an absent field is not present. -/
def present (p : Profile) (k : String) : Bool :=
  match p k with
  | some (.scalar s) => jsTrim s != ""
  | some (.lst l) => !l.isEmpty
  | none => false

/-- The `v && v.trim()` test used for the core/depth tiers of `calcConf`
(those fields are scalar strings in every profile the system builds). -/
def scalarFilled (p : Profile) (k : String) : Bool :=
  match p k with
  | some (.scalar s) => jsTrim s != ""
  | _ => false

/-- The 13 core fields, 4 points each. -/
def coreFields : List String :=
  ["companyName", "businessModel", "stage", "revenue", "teamSize", "funding",
   "icpTitle", "salesMotion", "channels", "avgDealSize",
   "salesProcess", "whoCloses", "mainBottleneck"]

/-- The 13 depth fields, 2 points each. -/
def depthFields : List String :=
  ["teamRoles", "pricingModel", "revenueGrowth", "competitiveLandscape",
   "icpCompanySize", "icpPainPoints", "bestChannel", "salesCycle",
   "winRate", "lostDealReasons", "churnRate", "crm", "tools"]

/-- The 2 milestone fields, 6 points each (checked with the array-aware
present test). -/
def milestoneFields : List String := ["diagnosedProblems", "userPriority"]

/-- The raw weighted sum of `calcConf` (the three accumulation loops). -/
def confScore (p : Profile) : Nat :=
  4 * (coreFields.countP (fun k => scalarFilled p k)) +
  2 * (depthFields.countP (fun k => scalarFilled p k)) +
  6 * (milestoneFields.countP (fun k => present p k))

/-- JS `Math.round(a / b)` for naturals: `⌊a/b + 1/2⌋ = (2a + b) / (2b)`.
(The JS value `score/90*100` is never exactly half-integral, so float
rounding agrees with exact rational rounding here.) -/
def jsRoundNatDiv (a b : Nat) : Nat := (2 * a + b) / (2 * b)

/-- JS `Math.min(100, Math.round((score / 90) * 100))`. -/
def confTotal (p : Profile) : Nat := min 100 (jsRoundNatDiv (confScore p * 100) 90)

/-! ### Sessions and the phase state machine (src/auth-check.js lines 39-94,
100-133, 224-259) -/

/-- A transcript entry (`{role, text}`). -/
structure TEntry where
  role : String
  text : String
deriving DecidableEq, Repr

/-- The session value built by `createSession` and threaded through the
handler. (`scrapedSummary` and the prompt-only data are omitted: no
decision logic reads them.) -/
structure Session where
  currentPhase : String
  phaseTurns : Nat
  totalTurns : Nat
  welcomeDone : Bool
  diagnosisPresented : Bool
  diagnosisValidated : Bool
  transcript : List TEntry
  profile : Profile

/-- The `calcConf(S).total` value. -/
def calcConf (S : Session) : Nat := confTotal S.profile

/-- Static configuration of one phase (`display`, `next`, `minTurns`,
`checklist`; the prompt-only `description`/`depthTopics` strings are
omitted). -/
structure PhaseDef where
  display : String
  next : Option String
  minTurns : Nat
  checklist : List String
deriving DecidableEq, Repr

/-- The `PHASES` table. -/
def PHASES (k : String) : Option PhaseDef :=
  if k = "welcome" then some ⟨"welcome", some "company", 1, []⟩
  else if k = "company" then
    some ⟨"company", some "gtm", 4, ["businessModel", "stage", "revenue", "teamSize", "funding"]⟩
  else if k = "gtm" then
    some ⟨"gtm", some "sales", 4, ["icpTitle", "salesMotion", "channels", "avgDealSize"]⟩
  else if k = "sales" then
    some ⟨"sales", some "diagnosis", 4, ["salesProcess", "whoCloses", "mainBottleneck"]⟩
  else if k = "diagnosis" then
    some ⟨"diagnosis", some "pre_finish", 2, ["diagnosedProblems", "userPriority"]⟩
  else if k = "pre_finish" then some ⟨"pre_finish", none, 1, []⟩
  else none

/-- JS `v !== ''` on a field value (`undefined !== ''` and an array compared
to `''` are both true). -/
def jsStrNeqEmpty : Option FieldVal → Bool
  | some (.scalar s) => s != ""
  | some (.lst _) => true
  | none => true

/-- The guard `canAdvancePhase(S)` (src/auth-check.js lines 224-249): minimum-turns
gate, then the welcome / pre_finish / diagnosis special gates, then the
all-checklist-items-present rule. -/
def canAdvancePhase (S : Session) : Bool :=
  match PHASES S.currentPhase with
  | none => false
  | some phase =>
    if S.phaseTurns < phase.minTurns then false
    else if S.currentPhase == "welcome" then S.welcomeDone
    else if S.currentPhase == "pre_finish" then false
    else if S.currentPhase == "diagnosis" then
      S.diagnosisPresented && S.diagnosisValidated && jsStrNeqEmpty (S.profile "userPriority")
    else if !phase.checklist.isEmpty then
      phase.checklist.all (fun k => present S.profile k)
    else true

/-- The transition `doAdvance(S)` (src/auth-check.js lines 251-259): move to the next phase
and reset the in-phase turn counter; returns whether it advanced. -/
def doAdvance (S : Session) : Session × Bool :=
  match PHASES S.currentPhase with
  | some phase =>
    match phase.next with
    | some nxt => ({ S with currentPhase := nxt, phaseTurns := 0 }, true)
    | none => (S, false)
  | none => (S, false)

/-- The handler's advancement step: `if (canAdvancePhase(S)) doAdvance(S)`. -/
def advanceIfReady (S : Session) : Session :=
  if canAdvancePhase S then (doAdvance S).1 else S

/-! ### Option sanitizing (src/auth-check.js `sanitizeOptions` /
`getDefaults`, lines 736-748) -/

/-- A sanitized option (`{key, label}`). -/
structure OptionItem where
  key : String
  label : String
deriving DecidableEq, Repr

/-- A raw option as returned by the generation service: `none` for a falsy
entry, and inner `none`s for fields that are not strings. -/
abbrev RawOpt : Type := Option (Option String × Option String)

/-- JS `s.slice(0, n)`. -/
def jsSlice (s : String) (n : Nat) : String := String.mk (s.toList.take n)

/-- The per-entry filter and map of `sanitizeOptions`:
`o && typeof o.key === 'string' && typeof o.label === 'string' && o.key.length > 0 && o.label.length > 0`,
then `{key: o.key.slice(0, 80), label: o.label.slice(0, 120)}`. -/
def validOpt : RawOpt → Option OptionItem
  | some (some k, some lb) =>
    if 0 < k.length && 0 < lb.length then some ⟨jsSlice k 80, jsSlice lb 120⟩ else none
  | _ => none

/-- The fallback `getDefaults(S)`: the fixed phase-appropriate default option sets. -/
def getDefaults (S : Session) : List OptionItem :=
  if S.currentPhase == "welcome" then
    [⟨"correct", "Yes, mostly correct"⟩, ⟨"partial", "Partially — let me clarify"⟩,
     ⟨"wrong", "Not quite right"⟩]
  else if S.currentPhase == "pre_finish" then
    [⟨"generate_report", "📥 Generate Strategic Growth Plan"⟩,
     ⟨"add_context", "Add more context first"⟩]
  else [⟨"continue", "Continue →"⟩, ⟨"explain", "Let me explain in detail"⟩]

/-- The validator `sanitizeOptions(raw, S)`: a non-array or empty raw list falls back to
the defaults; otherwise filter/clip/slice to at most 6 entries and fall
back to the defaults when fewer than 2 survive. -/
def sanitizeOptions (raw : Option (List RawOpt)) (S : Session) : List OptionItem :=
  match raw with
  | none => getDefaults S
  | some l =>
    if l.isEmpty then getDefaults S
    else
      let valid := (l.filterMap validOpt).take 6
      if 2 ≤ valid.length then valid else getDefaults S

/-! ### Stage resolution (src/api/report.js `resolveStage`, lines 41-55) -/

/-- Normalization `rawStage.toLowerCase().replace(/[^a-z0-9\s]/g, '')`. -/
def normStage (s : String) : String :=
  String.mk ((jsToLower s).toList.filter
    (fun c => ('a' ≤ c && c ≤ 'z') || ('0' ≤ c && c ≤ '9') || c.isWhitespace))

/-- The alias table of `resolveStage`, in object insertion order. -/
def stageAliases : List (String × List String) :=
  [("pre_seed_idea",
    ["pre-seed", "pre seed", "idea", "concept", "pre-revenue", "prerevenue",
     "pre revenue", "just started", "no revenue", "prototype"]),
   ("seed_startup",
    ["seed", "startup", "early", "pre-series-a", "pre series a", "angel",
     "bootstrap", "bootstrapped"]),
   ("early_scale",
    ["series a", "series-a", "growth", "scaling", "scale", "early scale",
     "growing", "scaleup"]),
   ("expansion_enterprise",
    ["series b", "series-b", "series c", "enterprise", "expansion", "mature",
     "ipo", "late stage"])]

/-- The four canonical stage identifiers. -/
def canonicalStages : List String :=
  ["pre_seed_idea", "seed_startup", "early_scale", "expansion_enterprise"]

/-- The resolver `resolveStage(rawStage)`: falsy input defaults to `seed_startup`; the
alias loop returns the first stage whose alias list has a substring match
against the normalized text; only then is the canonical-identifier
passthrough checked; anything else defaults to `seed_startup`. -/
def resolveStage (rawStage : String) : String :=
  if rawStage == "" then "seed_startup"
  else
    let s := normStage rawStage
    match stageAliases.find? (fun e => e.2.any (fun a => jsIncludes s a)) with
    | some e => e.1
    | none => if canonicalStages.contains rawStage then rawStage else "seed_startup"

/-! ### Feasibility guardrail (src/api/report.js `runFeasibilityChecks`,
lines 61-151) -/

/-- Read a scalar profile field as the string the report code sees
(`p.field`); an absent field reads as the empty string. -/
def getStr (p : Profile) (k : String) : String :=
  match p k with
  | some (.scalar s) => s
  | _ => ""

/-- JS `a || b` on strings: the empty string is falsy. -/
def jsOr (a b : String) : String := if a = "" then b else a

/-- The digit characters of `s`, i.e. `s.replace(/[^0-9]/g, '')`. -/
def digitsOf (s : String) : List Char := s.toList.filter Char.isDigit

/-- Decimal value of a digit list. -/
def natOfDigits (l : List Char) : Nat := l.foldl (fun n c => 10 * n + (c.toNat - 48)) 0

/-- JS `parseInt(s.replace(/[^0-9]/g, ''))`: `none` models NaN (no digits);
every NaN comparison in the rules is false. -/
def jsParseIntDigits (s : String) : Option Nat :=
  let d := digitsOf s
  if d.isEmpty then none else some (natOfDigits d)

/-- JS `parseFloat` on a character list whose only meaningful characters are
digits and dots (anything else ends the parse): integer digits, optionally
a dot and fraction digits; NaN (`none`) when no digit is consumed. -/
def parseFloatChars (cs : List Char) : Option ℚ :=
  let intPart := cs.takeWhile Char.isDigit
  let rest := cs.dropWhile Char.isDigit
  let fracPart := if rest.head? = some '.' then rest.tail.takeWhile Char.isDigit else []
  if intPart.isEmpty && fracPart.isEmpty then none
  else some ((natOfDigits intPart : ℚ) + (natOfDigits fracPart : ℚ) / (10 : ℚ) ^ fracPart.length)

/-- JS `parseFloat(s.replace(/[^0-9.]/g, ''))` (the churn-rate parse). -/
def jsParseFloatDigitsDots (s : String) : Option ℚ :=
  parseFloatChars (s.toList.filter (fun c => c.isDigit || c == '.'))

/-- A regex alternative `pre.post` with `.` matching exactly one character
(as in `/account.based/` and `/self.funded/`). -/
def wildcardTest (hay pre post : String) : Bool :=
  hay.toList.tails.any
    (fun t => pre.toList.isPrefixOf t && post.toList.isPrefixOf (t.drop (pre.length + 1)))

/-- The test `/salesforce|hubspot pro|hubspot enterprise|marketo|outreach|salesloft|gong|6sense/`. -/
def enterpriseToolsTest (s : String) : Bool :=
  ["salesforce", "hubspot pro", "hubspot enterprise", "marketo", "outreach",
   "salesloft", "gong", "6sense"].any (fun pat => jsIncludes s pat)

/-- The test `/outbound|abm|account.based/` on the lowercased sales motion. -/
def outboundTest (s : String) : Bool :=
  jsIncludes s "outbound" || jsIncludes s "abm" || wildcardTest s "account" "based"

/-- The test `/bootstrap|self.funded|no funding/i` (case handled by lowercasing the
text before the test). -/
def bootstrappedTest (s : String) : Bool :=
  jsIncludes s "bootstrap" || wildcardTest s "self" "funded" || jsIncludes s "no funding"

/-- The test `/founder|ceo|co-founder|io|myself/i`. -/
def founderClosesTest (s : String) : Bool :=
  ["founder", "ceo", "co-founder", "io", "myself"].any (fun pat => jsIncludes s pat)

/-- The test `/scaling|growth|capacity/i`. -/
def scalingTest (s : String) : Bool :=
  ["scaling", "growth", "capacity"].any (fun pat => jsIncludes s pat)

/-- The test `/lead|acquisition|pipeline|traffic/i`. -/
def leadsTest (s : String) : Bool :=
  ["lead", "acquisition", "pipeline", "traffic"].any (fun pat => jsIncludes s pat)

/-- A feasibility flag. -/
structure Flag where
  type : String
  severity : String
  issue : String
  detail : String
  recommendation : String
deriving DecidableEq, Repr

/-- One stage benchmark entry (`{median, good, bad}`; `none` models
null/undefined). -/
structure BmEntry where
  median : Option ℚ
  good : Option ℚ
  bad : Option ℚ
deriving DecidableEq, Repr

/-- The stage data object handed to the report pipeline: label, the
`playbook.budgetGuidance.toolSpend.max` ceiling, and the benchmark table. -/
structure StageData where
  label : String
  toolSpendMax : Option Nat
  benchmarks : Option (List (String × BmEntry))

/-- JS `parseInt((p.teamSize || '0').replace(/[^0-9]/g, ''))`: a missing or
empty team size defaults to the text `'0'` before parsing. -/
def teamNum (p : Profile) : Option Nat :=
  jsParseIntDigits (jsOr (getStr p "teamSize") "0")

/-- Rule 1: budget vs. ambition mismatch. -/
def rule1 (p : Profile) : Option Flag :=
  if getStr p "budgetLevel" == "limited" && getStr p "growthTarget" != "" then
    match jsParseIntDigits (getStr p "growthTarget") with
    | some n =>
      if 100 < n then
        some ⟨"contradiction", "high", "High growth target with limited budget",
          "Growth target \"" ++ getStr p "growthTarget" ++
            "\" paired with \"limited\" budget is unrealistic without external funding or radical efficiency gains.",
          "Either adjust growth expectations to 30-50% or identify budget reallocation opportunities."⟩
      else none
    | none => none
  else none

/-- Rule 2: stage vs. tool mismatch (only when stage data is present). -/
def rule2 (p : Profile) (sd : Option StageData) : Option Flag :=
  match sd with
  | none => none
  | some st =>
    let tools := jsToLower (getStr p "tools")
    let crm := jsToLower (getStr p "crm")
    if resolveStage (jsOr (getStr p "companyStage") (getStr p "stage")) == "pre_seed_idea"
        && enterpriseToolsTest (tools ++ crm) then
      some ⟨"anti_pattern", "medium", "Enterprise-grade tools at " ++ st.label ++ " stage",
        "Tools like Salesforce/Marketo/Gong are over-engineered for a " ++ st.label ++
          " company. Maximum recommended tool spend: €" ++
          (match st.toolSpendMax with | some n => toString n | none => "200") ++ "/mo.",
        "Downgrade to founder-appropriate tools: Google Sheets, Notion, HubSpot Free."⟩
    else none

/-- Rule 3: team size vs. sales motion mismatch (`NaN <= 5` is false, so a
non-numeric team size skips the rule). -/
def rule3 (p : Profile) : Option Flag :=
  match teamNum p with
  | some n =>
    if n ≤ 5 && outboundTest (jsToLower (getStr p "salesMotion")) then
      some ⟨"contradiction", "medium", "Outbound/ABM motion with tiny team",
        "Team of " ++ toString n ++
          " running outbound/ABM is unsustainable. ABM requires dedicated SDRs, content, and ops.",
        "Focus on founder-led inbound or PLG until team grows to 10+."⟩
    else none
  | none => none

/-- Rule 4: revenue vs. funding gap. -/
def rule4 (p : Profile) : Option Flag :=
  if getStr p "funding" != "" && getStr p "revenue" != "" then
    match jsParseIntDigits (jsOr (getStr p "revenue") "0"), teamNum p with
    | some mrr, some tn =>
      if bootstrappedTest (jsToLower (getStr p "funding")) && mrr < 5000 && 5 < tn then
        some ⟨"risk", "high", "Cash runway concern",
          "Bootstrapped with <€5K MRR and " ++ toString tn ++
            " team members. Burn likely exceeds revenue significantly.",
          "Urgent: reduce to core team (founder + 1-2) or close bridge funding within 60 days."⟩
      else none
    | _, _ => none
  else none

/-- Rule 5: founder dependency plus scaling ambition. -/
def rule5 (p : Profile) : Option Flag :=
  if getStr p "whoCloses" != "" && getStr p "mainBottleneck" != "" then
    if founderClosesTest (jsToLower (getStr p "whoCloses"))
        && scalingTest (jsToLower (getStr p "mainBottleneck")) then
      some ⟨"structural", "high", "Founder bottleneck blocks scaling",
        "Founder is the only closer while scaling is the identified bottleneck. These are directly connected.",
        "First hire should be an AE who can own the sales process end-to-end, not an SDR."⟩
    else none
  else none

/-- Rule 6: churn vs. acquisition focus. (The detail text renders the churn
value with Lean's rational printer rather than JS float notation; the text
is prompt prose, never inspected by the code.) -/
def rule6 (p : Profile) : Option Flag :=
  if getStr p "churnRate" != "" && getStr p "mainBottleneck" != "" then
    match jsParseFloatDigitsDots (jsOr (getStr p "churnRate") "0") with
    | some c =>
      if 5 < c && leadsTest (jsToLower (getStr p "mainBottleneck")) then
        some ⟨"contradiction", "high", "Leaky bucket: high churn with acquisition focus",
          "Monthly churn of " ++ toString c ++
            "% means the bucket is leaking. Focusing on lead gen without fixing retention is burning money.",
          "Fix retention first: aim for <3% monthly churn before scaling acquisition."⟩
      else none
    | none => none
  else none

/-- The guardrail `runFeasibilityChecks(profile, stageData)`: the six independent rules in
evaluation order, each pushing at most one flag. -/
def runFeasibilityChecks (p : Profile) (sd : Option StageData) : List Flag :=
  (rule1 p).toList ++ (rule2 p sd).toList ++ (rule3 p).toList ++
  (rule4 p).toList ++ (rule5 p).toList ++ (rule6 p).toList

/-! ### Benchmark chart and dashboard normalization (src/unnamed/part_000,
`buildChartData` lines 254-382 and `buildDashboardData` lines 388-467) -/

/-- JS `Math.round(q)` on an exact rational: `⌊q + 1/2⌋`, computed as an
integer floor division so that it evaluates by kernel reduction. -/
def jsRound (q : ℚ) : ℤ := (2 * q.num + (q.den : ℤ)) / (2 * (q.den : ℤ))

/-- JS `Math.max(0, Math.min(100, z))`. -/
def clamp100 (z : ℤ) : ℤ := max 0 (min 100 z)

/-- The `normForBar` closure of `buildChartData` (and, identically, the
`normalize` closure of the radar branch): direction-aware 0-100
normalization against the good/bad references with linear interpolation
in between. -/
def normForBar (lowerBetter : Bool) (goodVal badVal val : ℚ) : ℤ :=
  if lowerBetter then
    if val ≤ goodVal then 100
    else if badVal ≤ val then 0
    else jsRound (100 * (badVal - val) / (badVal - goodVal))
  else
    if goodVal ≤ val then 100
    else if val ≤ badVal then 0
    else jsRound (100 * (val - badVal) / (goodVal - badVal))

/-- The `healthScore` computation of `buildDashboardData` (same branch
structure as `normForBar`, then clamped to `[0, 100]`). -/
def healthScore (lowerBetter : Bool) (good bad userVal : ℚ) : ℤ :=
  clamp100
    (if lowerBetter then
      if userVal ≤ good then 100
      else if bad ≤ userVal then 0
      else jsRound (100 * (bad - userVal) / (bad - good))
    else
      if good ≤ userVal then 100
      else if userVal ≤ bad then 0
      else jsRound (100 * (userVal - bad) / (good - bad)))

/-- JS `[...l].replace(',', '.')`: JS `replace` with a string pattern replaces
only the first occurrence. -/
def replaceFirstComma : List Char → List Char
  | [] => []
  | c :: cs => if c == ',' then '.' :: cs else c :: replaceFirstComma cs

/-- The `num(v)` helper of `buildChartData` / `buildDashboardData` on a
string: `String(v).replace(/[^0-9.,]/g, '').replace(',', '.')`, empty →
null, then `parseFloat` (NaN → null). -/
def jsNumStr (s : String) : Option ℚ :=
  let kept := s.toList.filter (fun c => c.isDigit || c == '.' || c == ',')
  if kept.isEmpty then none else parseFloatChars (replaceFirstComma kept)

/-- The helper `num(v)` on a field value: `String(v)` of an array joins its elements
with commas. -/
def jsNumVal : Option FieldVal → Option ℚ
  | none => none
  | some (.scalar s) => jsNumStr s
  | some (.lst l) => jsNumStr (String.intercalate "," l)

/-- One tracked metric row of the `metricDefs` tables. -/
structure MetricDef where
  key : String
  label : String
  userField : Option FieldVal
  unit : String
  lowerBetter : Bool

/-- The `metricDefs` table of `buildChartData` (profile fields resolved). -/
def metricDefs (p : Profile) : List MetricDef :=
  [⟨"churnMonthly", "Monthly Churn", p "churnRate", "%", true⟩,
   ⟨"cac", "CAC", p "cac", "€", true⟩,
   ⟨"ltv", "LTV", p "ltv", "€", false⟩,
   ⟨"salesCycleDays", "Sales Cycle", p "salesCycle", "days", true⟩,
   ⟨"avgDealSize", "Avg Deal Size", p "avgDealSize", "€", false⟩,
   ⟨"winRate", "Win Rate", p "winRate", "%", false⟩,
   ⟨"netRevenueRetention", "NRR", p "nrr", "%", false⟩,
   ⟨"grossMargin", "Gross Margin", none, "%", false⟩]

/-- The bar-chart parallel arrays pushed by the `buildChartData` loop. -/
structure BarData where
  labels : List String
  user : List (Option ℤ)
  median : List (Option ℤ)
  good : List ℤ
  units : List String
  rawUser : List (Option ℚ)
  rawMedian : List ℚ
deriving DecidableEq, Repr

/-- The radar-chart parallel arrays (only metrics with user data). -/
structure RadarData where
  labels : List String
  user : List ℤ
  median : List ℤ
  good : List ℤ
deriving DecidableEq, Repr

/-- The structured result of `buildChartData`. -/
structure ChartData where
  stageLabel : String
  radar : RadarData
  bar : BarData
deriving DecidableEq, Repr

/-- The main loop of `buildChartData`: one pass over `metricDefs`, skipping
metrics without a configured median, deriving good/bad references
(`median×0.5` / `median×2` / `median×0.3` defaults, direction-aware) and
pushing normalized bar values (and radar values when the user value
parses). Processing the tail first and consing preserves the push order. -/
def chartBuild (bms : List (String × BmEntry)) : List MetricDef → BarData × RadarData
  | [] => (⟨[], [], [], [], [], [], []⟩, ⟨[], [], [], []⟩)
  | m :: rest =>
    let acc := chartBuild bms rest
    match List.lookup m.key bms with
    | none => acc
    | some e =>
      match e.median with
      | none => acc
      | some med =>
        let userVal := jsNumVal m.userField
        let goodVal := e.good.getD (if m.lowerBetter then med / 2 else med * 2)
        let badVal := e.bad.getD (if m.lowerBetter then med * 2 else med * (3 / 10))
        let b := acc.1
        let r := acc.2
        let b' : BarData :=
          ⟨m.label :: b.labels,
           (userVal.map (normForBar m.lowerBetter goodVal badVal)) :: b.user,
           some (normForBar m.lowerBetter goodVal badVal med) :: b.median,
           100 :: b.good, m.unit :: b.units, userVal :: b.rawUser, med :: b.rawMedian⟩
        let r' : RadarData :=
          match userVal with
          | none => r
          | some uv =>
            ⟨m.label :: r.labels,
             clamp100 (normForBar m.lowerBetter goodVal badVal uv) :: r.user,
             clamp100 (normForBar m.lowerBetter goodVal badVal med) :: r.median,
             100 :: r.good⟩
        (b', r')

/-- The builder `buildChartData(profile, stageData)`: null without stage benchmarks, and
null when no tracked metric has a configured median (`barLabels.length === 0`). -/
def buildChartData (p : Profile) (sd : Option StageData) : Option ChartData :=
  match sd with
  | none => none
  | some st =>
    match st.benchmarks with
    | none => none
    | some bms =>
      let acc := chartBuild bms (metricDefs p)
      if acc.1.labels.isEmpty then none else some ⟨st.label, acc.2, acc.1⟩

/-- Whether a metric row survives the `continue` filter of the chart loop:
its key is in the benchmark table with a non-null median. -/
def hasMedian (bms : List (String × BmEntry)) (m : MetricDef) : Bool :=
  match List.lookup m.key bms with
  | some e => e.median.isSome
  | none => false

/-! ### Auxiliary functions for the merge idempotence proof -/

/-- The filtered items a single update value contributes to a list field. -/
def itemsOf : UpdVal → List String
  | .nullv => []
  | .str s => filterItems [s]
  | .arr l => filterItems l

/-- The effect of one update value on a list-typed field. -/
def listStep (ys : List String) (v : UpdVal) : List String :=
  match v with
  | .nullv => ys
  | .str _ => setDedup (ys ++ itemsOf v)
  | .arr _ => setDedup (ys ++ itemsOf v)

/-- The effect of one update value on a scalar-typed field. -/
def scalarStep (a : String) (v : UpdVal) : String :=
  match v with
  | .str s => if jsTrim s != "" then jsTrim s else a
  | _ => a

/-- The update values of `us` aimed at key `k`, in order. -/
def valsAt (k : String) (us : List (String × UpdVal)) : List UpdVal :=
  us.filterMap (fun kv => if kv.1 = k then some kv.2 else none)

/-! ### Concrete scenario data used by the closed theorems -/

/-- A profile with the whole company-phase checklist filled. -/
def companyChecklistProfile : Profile := fun k =>
  if k = "businessModel" then some (.scalar "saas")
  else if k = "stage" then some (.scalar "seed")
  else if k = "revenue" then some (.scalar "10k MRR")
  else if k = "teamSize" then some (.scalar "5")
  else if k = "funding" then some (.scalar "angel")
  else none

/-- A company-phase session with the checklist filled, after `t` in-phase
turns. -/
def companySession (t : Nat) : Session :=
  ⟨"company", t, t, true, false, false, [], companyChecklistProfile⟩

/-- The C7 scenario profile, parameterized by the team-size text. -/
def runwayProfile (ts : String) : Profile := fun k =>
  if k = "funding" then some (.scalar "bootstrapped")
  else if k = "revenue" then some (.scalar "€2,000")
  else if k = "teamSize" then some (.scalar ts)
  else none

/-- A profile with an outbound sales motion and no team-size field at all. -/
def outboundNoTeamProfile : Profile := fun k =>
  if k = "salesMotion" then some (.scalar "outbound") else none

/-- A profile whose numeric-source fields all hold non-numeric text (and
whose non-numeric rule-5 pattern matches). -/
def nonNumericProfile : Profile := fun k =>
  if k = "budgetLevel" then some (.scalar "limited")
  else if k = "growthTarget" then some (.scalar "double it")
  else if k = "funding" then some (.scalar "bootstrapped")
  else if k = "revenue" then some (.scalar "confidential")
  else if k = "teamSize" then some (.scalar "a few")
  else if k = "churnRate" then some (.scalar "high")
  else if k = "salesMotion" then some (.scalar "outbound abm")
  else if k = "whoCloses" then some (.scalar "the founder")
  else if k = "mainBottleneck" then some (.scalar "lead gen and scaling")
  else none

/-! ## Theorems -/

example : mergeField (.lst ["a"]) (.arr ["", "b", "a", " "]) = .lst ["a", "b"] := by decide
example : mergeField (.scalar "x") (.str "  y ") = .scalar "y" := by decide
example : mergeField (.scalar "x") (.str "   ") = .scalar "x" := by decide
example : setDedup ["a", "b", "a", "c", "b"] = ["a", "b", "c"] := by decide

/-! Basic lemmas about `setDedup`. -/

theorem dedupGo_congr {s₁ s₂ : List String} (l : List String)
    (h : ∀ y, s₁.contains y = s₂.contains y) : dedupGo s₁ l = dedupGo s₂ l := by
  induction l generalizing s₁ s₂ with
  | nil => rfl
  | cons x xs ih =>
    simp only [dedupGo, h x]
    cases hx : s₂.contains x
    · simp only [Bool.false_eq_true, if_false]
      refine congrArg (List.cons x) (ih fun y => ?_)
      have hy := h y
      simp only [List.contains_cons, hy]
    · simp only [if_true]
      exact ih h

theorem dedupGo_cons_seen (x : String) (seen : List String) (l : List String) :
    dedupGo (x :: seen) l = dedupGo seen (l.filter (fun y => y != x)) := by
  induction l generalizing seen with
  | nil => rfl
  | cons y ys ih =>
    by_cases hyx : y = x
    · subst hyx
      have c1 : (y :: seen).contains y = true := by simp [List.contains_cons]
      have c2 : (y != y) = false := by simp
      simp only [dedupGo, List.filter_cons, c1, c2, if_true, Bool.false_eq_true, if_false]
      exact ih seen
    · have c1 : (x :: seen).contains y = seen.contains y := by
        simp [List.contains_cons, hyx]
      have c2 : (y != x) = true := bne_iff_ne.mpr hyx
      simp only [dedupGo, List.filter_cons, c1, c2, if_true]
      cases hy : seen.contains y
      · simp only [Bool.false_eq_true, if_false]
        refine congrArg (List.cons y) ?_
        have swap : dedupGo (y :: x :: seen) ys = dedupGo (x :: y :: seen) ys :=
          dedupGo_congr ys (fun z => by simp [List.contains_cons, Bool.or_left_comm])
        rw [swap]
        exact ih (y :: seen)
      · simp only [if_true]
        exact ih seen

theorem setDedup_nil : setDedup [] = [] := rfl

theorem setDedup_cons (x : String) (xs : List String) :
    setDedup (x :: xs) = x :: setDedup (xs.filter (fun y => y != x)) := by
  have c0 : ([] : List String).contains x = false := rfl
  simp only [setDedup, dedupGo, c0, Bool.false_eq_true, if_false]
  exact congrArg (List.cons x) (dedupGo_cons_seen x [] xs)

theorem mem_setDedup_aux (a : String) :
    ∀ (n : Nat) (l : List String), l.length ≤ n → (a ∈ setDedup l ↔ a ∈ l) := by
  intro n
  induction n with
  | zero =>
    intro l hl
    have : l = [] := List.eq_nil_of_length_eq_zero (Nat.le_zero.mp hl)
    subst this
    simp [setDedup_nil]
  | succ n ih =>
    intro l hl
    cases l with
    | nil => simp [setDedup_nil]
    | cons x xs =>
      have hlen : (xs.filter (fun y => y != x)).length ≤ n :=
        le_trans (List.length_filter_le _ _) (Nat.succ_le_succ_iff.mp hl)
      rw [setDedup_cons]
      simp only [List.mem_cons, ih _ hlen]
      by_cases hax : a = x
      · simp [hax]
      · simp [hax, List.mem_filter, bne_iff_ne]

theorem mem_setDedup (a : String) (l : List String) : a ∈ setDedup l ↔ a ∈ l :=
  mem_setDedup_aux a l.length l le_rfl

theorem setDedup_dedup_append_aux :
    ∀ (n : Nat) (xs ys : List String), xs.length ≤ n →
      setDedup (setDedup xs ++ ys) = setDedup (xs ++ ys) := by
  intro n
  induction n with
  | zero =>
    intro xs ys hl
    have : xs = [] := List.eq_nil_of_length_eq_zero (Nat.le_zero.mp hl)
    subst this
    rw [setDedup_nil]
  | succ n ih =>
    intro xs ys hl
    cases xs with
    | nil => rw [setDedup_nil]
    | cons x xs =>
      have hlen : (xs.filter (fun y => y != x)).length ≤ n :=
        le_trans (List.length_filter_le _ _) (Nat.succ_le_succ_iff.mp hl)
      rw [setDedup_cons, List.cons_append, setDedup_cons, List.filter_append]
      have hfix : (setDedup (xs.filter (fun y => y != x))).filter (fun y => y != x) =
          setDedup (xs.filter (fun y => y != x)) :=
        List.filter_eq_self.mpr
          (fun a ha => (List.mem_filter.mp ((mem_setDedup a _).mp ha)).2)
      rw [hfix, ih _ _ hlen, ← List.filter_append, ← setDedup_cons, ← List.cons_append]

theorem setDedup_dedup_append (xs ys : List String) :
    setDedup (setDedup xs ++ ys) = setDedup (xs ++ ys) :=
  setDedup_dedup_append_aux xs.length xs ys le_rfl

theorem setDedup_idem (l : List String) : setDedup (setDedup l) = setDedup l := by
  have h := setDedup_dedup_append l []
  simpa using h

theorem setDedup_append_subset_aux :
    ∀ (n : Nat) (xs ys : List String), xs.length ≤ n → (∀ y ∈ ys, y ∈ xs) →
      setDedup (xs ++ ys) = setDedup xs := by
  intro n
  induction n with
  | zero =>
    intro xs ys hl hsub
    have hx : xs = [] := List.eq_nil_of_length_eq_zero (Nat.le_zero.mp hl)
    subst hx
    have hy : ys = [] := List.eq_nil_iff_forall_not_mem.mpr
      (fun a ha => by simpa using hsub a ha)
    subst hy
    rfl
  | succ n ih =>
    intro xs ys hl hsub
    cases xs with
    | nil =>
      have hy : ys = [] := List.eq_nil_iff_forall_not_mem.mpr
        (fun a ha => by simpa using hsub a ha)
      subst hy
      rfl
    | cons x xs =>
      have hlen : (xs.filter (fun y => y != x)).length ≤ n :=
        le_trans (List.length_filter_le _ _) (Nat.succ_le_succ_iff.mp hl)
      rw [List.cons_append, setDedup_cons, List.filter_append, setDedup_cons]
      refine congrArg (List.cons x) (ih _ _ hlen (fun y hy => ?_))
      have hmem := List.mem_filter.mp hy
      have hne : y ≠ x := bne_iff_ne.mp hmem.2
      rcases List.mem_cons.mp (hsub y hmem.1) with rfl | hyx
      · exact absurd rfl hne
      · exact List.mem_filter.mpr ⟨hyx, hmem.2⟩

theorem setDedup_append_subset (xs ys : List String) (hsub : ∀ y ∈ ys, y ∈ xs) :
    setDedup (xs ++ ys) = setDedup xs :=
  setDedup_append_subset_aux xs.length xs ys le_rfl hsub

theorem setDedup_append_nodup_aux :
    ∀ (n : Nat) (xs ys : List String), xs.length ≤ n → xs.Nodup →
      setDedup (xs ++ ys) = xs ++ setDedup (ys.filter (fun y => !(xs.contains y))) := by
  intro n
  induction n with
  | zero =>
    intro xs ys hl _
    have hx : xs = [] := List.eq_nil_of_length_eq_zero (Nat.le_zero.mp hl)
    subst hx
    simp only [List.nil_append]
    refine congrArg setDedup (List.filter_eq_self.mpr (fun a _ => ?_)).symm
    rfl
  | succ n ih =>
    intro xs ys hl hnd
    cases xs with
    | nil =>
      simp only [List.nil_append]
      refine congrArg setDedup (List.filter_eq_self.mpr (fun a _ => ?_)).symm
      rfl
    | cons x xs =>
      have hx : x ∉ xs := (List.nodup_cons.mp hnd).1
      have hnd' : xs.Nodup := (List.nodup_cons.mp hnd).2
      have hlen : xs.length ≤ n := Nat.succ_le_succ_iff.mp hl
      rw [List.cons_append, setDedup_cons, List.filter_append]
      have h1 : xs.filter (fun y => y != x) = xs :=
        List.filter_eq_self.mpr (fun a ha => bne_iff_ne.mpr (fun e => hx (e ▸ ha)))
      rw [h1, ih xs _ hlen hnd', List.filter_filter, List.cons_append]
      refine congrArg (List.cons x) (congrArg (fun z => xs ++ setDedup z) ?_)
      refine List.filter_congr (fun a _ => ?_)
      by_cases hax : a = x
      · subst hax
        simp
      · have hb : (a != x) = true := bne_iff_ne.mpr hax
        simp [hb, hax, List.contains_cons]

theorem setDedup_append_nodup (xs ys : List String) (hnd : xs.Nodup) :
    setDedup (xs ++ ys) = xs ++ setDedup (ys.filter (fun y => !(xs.contains y))) :=
  setDedup_append_nodup_aux xs.length xs ys le_rfl hnd

/-! Correspondence between `mergeField` folds and the per-kind step
functions, and idempotence of each. -/

theorem foldl_mergeField_lst (vs : List UpdVal) :
    ∀ xs : List String,
      List.foldl mergeField (.lst xs) vs = .lst (List.foldl listStep xs vs) := by
  induction vs with
  | nil => intro xs; rfl
  | cons v vs ih =>
    intro xs
    cases v with
    | nullv => exact ih xs
    | str s => exact ih _
    | arr l => exact ih _

theorem foldl_mergeField_scalar (vs : List UpdVal) :
    ∀ a : String,
      List.foldl mergeField (.scalar a) vs = .scalar (List.foldl scalarStep a vs) := by
  induction vs with
  | nil => intro a; rfl
  | cons v vs ih =>
    intro a
    cases v with
    | nullv => exact ih a
    | arr l => exact ih a
    | str s =>
      by_cases hs : (jsTrim s != "") = true
      · simp only [List.foldl_cons, mergeField, scalarStep, hs, if_true]
        exact ih _
      · simp only [List.foldl_cons, mergeField, scalarStep, hs, if_false]
        exact ih a

theorem scalarFold_cases (vs : List UpdVal) :
    ∀ a b : String,
      List.foldl scalarStep a vs = List.foldl scalarStep b vs ∨
      (List.foldl scalarStep a vs = a ∧ List.foldl scalarStep b vs = b) := by
  induction vs with
  | nil => intro a b; right; exact ⟨rfl, rfl⟩
  | cons v vs ih =>
    intro a b
    cases v with
    | nullv => exact ih a b
    | arr l => exact ih a b
    | str s =>
      by_cases hs : (jsTrim s != "") = true
      · left
        simp only [List.foldl_cons, scalarStep, hs, if_true]
      · have ha : scalarStep a (.str s) = a := by simp [scalarStep, hs]
        have hb : scalarStep b (.str s) = b := by simp [scalarStep, hs]
        simp only [List.foldl_cons, ha, hb]
        exact ih a b

theorem scalarFold_idem (a : String) (vs : List UpdVal) :
    List.foldl scalarStep (List.foldl scalarStep a vs) vs = List.foldl scalarStep a vs := by
  rcases scalarFold_cases vs (List.foldl scalarStep a vs) a with h | ⟨h1, _⟩
  · exact h
  · exact h1

theorem mem_listStep {a : String} {ys : List String} (v : UpdVal) (h : a ∈ ys) :
    a ∈ listStep ys v := by
  cases v with
  | nullv => exact h
  | str s => exact (mem_setDedup a _).mpr (List.mem_append_left _ h)
  | arr l => exact (mem_setDedup a _).mpr (List.mem_append_left _ h)

theorem itemsOf_mem_listStep {a : String} {ys : List String} {v : UpdVal}
    (h : a ∈ itemsOf v) : a ∈ listStep ys v := by
  cases v with
  | nullv => simp [itemsOf] at h
  | str s => exact (mem_setDedup a _).mpr (List.mem_append_right _ h)
  | arr l => exact (mem_setDedup a _).mpr (List.mem_append_right _ h)

theorem mem_foldl_listStep {a : String} (vs : List UpdVal) :
    ∀ {ys : List String}, a ∈ ys → a ∈ List.foldl listStep ys vs := by
  induction vs with
  | nil => intro ys h; exact h
  | cons v vs ih => intro ys h; exact ih (mem_listStep v h)

theorem itemsOf_mem_foldl {a : String} {v : UpdVal} (vs : List UpdVal)
    (hv : v ∈ vs) (ha : a ∈ itemsOf v) :
    ∀ {ys : List String}, a ∈ List.foldl listStep ys vs := by
  induction vs with
  | nil => cases hv
  | cons w ws ih =>
    intro ys
    rcases List.mem_cons.mp hv with rfl | hv'
    · exact mem_foldl_listStep ws (itemsOf_mem_listStep ha)
    · exact ih hv'

theorem foldl_listStep_fixed (vs : List UpdVal) :
    ∀ ys : List String, setDedup ys = ys →
      setDedup (List.foldl listStep ys vs) = List.foldl listStep ys vs := by
  induction vs with
  | nil => intro ys h; exact h
  | cons v vs ih =>
    intro ys h
    cases v with
    | nullv => exact ih ys h
    | str s => exact ih _ (setDedup_idem _)
    | arr l => exact ih _ (setDedup_idem _)

theorem foldl_listStep_cases (vs : List UpdVal) :
    ∀ ys : List String,
      ((∀ v ∈ vs, v = UpdVal.nullv) ∧ List.foldl listStep ys vs = ys) ∨
      setDedup (List.foldl listStep ys vs) = List.foldl listStep ys vs := by
  induction vs with
  | nil => intro ys; left; exact ⟨by simp, rfl⟩
  | cons v vs ih =>
    intro ys
    cases v with
    | nullv =>
      rcases ih ys with ⟨h1, h2⟩ | h
      · left
        refine ⟨fun w hw => ?_, h2⟩
        rcases List.mem_cons.mp hw with rfl | hw'
        · rfl
        · exact h1 w hw'
      · right; exact h
    | str s => right; exact foldl_listStep_fixed vs _ (setDedup_idem _)
    | arr l => right; exact foldl_listStep_fixed vs _ (setDedup_idem _)

theorem foldl_listStep_id (vs : List UpdVal) :
    ∀ ys : List String, setDedup ys = ys →
      (∀ v ∈ vs, ∀ a ∈ itemsOf v, a ∈ ys) → List.foldl listStep ys vs = ys := by
  induction vs with
  | nil => intro ys _ _; rfl
  | cons v vs ih =>
    intro ys hfix hsub
    have hstep : listStep ys v = ys := by
      cases v with
      | nullv => rfl
      | str s =>
        show setDedup (ys ++ itemsOf (.str s)) = ys
        rw [setDedup_append_subset ys _ (fun a ha => hsub _ (by simp) a ha), hfix]
      | arr l =>
        show setDedup (ys ++ itemsOf (.arr l)) = ys
        rw [setDedup_append_subset ys _ (fun a ha => hsub _ (by simp) a ha), hfix]
    show List.foldl listStep (listStep ys v) vs = ys
    rw [hstep]
    exact ih ys hfix (fun w hw => hsub w (List.mem_cons_of_mem v hw))

theorem listFold_idem (xs : List String) (vs : List UpdVal) :
    List.foldl listStep (List.foldl listStep xs vs) vs = List.foldl listStep xs vs := by
  rcases foldl_listStep_cases vs xs with ⟨_, heq⟩ | hfix
  · rw [heq, heq]
  · exact foldl_listStep_id vs _ hfix (fun v hv a ha => itemsOf_mem_foldl vs hv ha)

theorem foldl_mergeField_idem (c : FieldVal) (vs : List UpdVal) :
    List.foldl mergeField (List.foldl mergeField c vs) vs = List.foldl mergeField c vs := by
  cases c with
  | scalar a =>
    rw [foldl_mergeField_scalar, foldl_mergeField_scalar, scalarFold_idem]
  | lst xs =>
    rw [foldl_mergeField_lst, foldl_mergeField_lst, listFold_idem]

theorem applyUpdates_apply (us : List (String × UpdVal)) :
    ∀ (p : Profile) (k : String),
      applyUpdates p us k =
        match p k with
        | none => none
        | some c => some (List.foldl mergeField c (valsAt k us)) := by
  induction us with
  | nil => intro p k; cases hp : p k <;> simp [applyUpdates, valsAt, hp]
  | cons kv us ih =>
    intro p k
    show applyUpdates (applyUpdate p kv.1 kv.2) us k = _
    rw [ih]
    by_cases hk : k = kv.1
    · have h1 : applyUpdate p kv.1 kv.2 k =
          match p k with
          | none => none
          | some c => some (mergeField c kv.2) := by
        simp [applyUpdate, hk]
      have hv : valsAt k (kv :: us) = kv.2 :: valsAt k us := by
        simp [valsAt, List.filterMap_cons, hk.symm]
      rw [h1, hv]
      cases hp : p k <;> rfl
    · have h1 : applyUpdate p kv.1 kv.2 k = p k := by
        simp [applyUpdate, hk]
      have hk' : kv.1 ≠ k := fun h => hk h.symm
      have hv : valsAt k (kv :: us) = valsAt k us := by
        simp [valsAt, List.filterMap_cons, hk']
      rw [h1, hv]

/-- Claim C2: the profile-update merge is idempotent — applying the same
update map twice yields the same profile as applying it once, for scalar-
and list-typed fields alike. -/
theorem applyUpdates_idem (P : Profile) (U : List (String × UpdVal)) :
    applyUpdates (applyUpdates P U) U = applyUpdates P U := by
  funext k
  rw [applyUpdates_apply, applyUpdates_apply]
  cases hp : P k
  · rfl
  · exact congrArg some (foldl_mergeField_idem _ _)

/-- Claim C5, counterexample: the merge does not store accepted list items
trimmed. Merging the candidate item `" slow sales "` into an empty
`diagnosedProblems` list stores the item verbatim, with its surrounding
whitespace, not its trimmed form. -/
theorem merge_items_not_trimmed :
    applyUpdates (fun k => if k = "diagnosedProblems" then some (.lst []) else none)
        [("diagnosedProblems", .arr [" slow sales "])] "diagnosedProblems"
      = some (.lst [" slow sales "]) ∧
    jsTrim " slow sales " ≠ " slow sales " := by
  constructor
  · rfl
  · decide

/-- Claim C5, amended: for a list-typed field whose current list has no
duplicates, the merge discards candidate items whose trimmed form is empty
but stores the accepted items verbatim (not trimmed); deduplication is by
case-sensitive exact match against the existing items, the prior list is
preserved as a prefix in order, and the genuinely new items are appended in
the order supplied (first occurrence kept). -/
theorem merge_list_shape (xs is : List String) (h : xs.Nodup) :
    mergeField (.lst xs) (.arr is) =
      .lst (xs ++ setDedup ((filterItems is).filter (fun y => !(xs.contains y)))) := by
  show FieldVal.lst (setDedup (xs ++ filterItems is)) = _
  rw [setDedup_append_nodup xs (filterItems is) h]

/-- Witness for `merge_list_shape` at a concrete input. -/
theorem merge_list_shape_witness :
    (["existing"] : List String).Nodup ∧
    mergeField (.lst ["existing"]) (.arr ["", " ", "new", "existing", "new"]) =
      .lst (["existing"] ++ setDedup ((filterItems ["", " ", "new", "existing", "new"]).filter
        (fun y => !((["existing"] : List String).contains y)))) ∧
    mergeField (.lst ["existing"]) (.arr ["", " ", "new", "existing", "new"]) =
      .lst ["existing", "new"] :=
  ⟨by decide, merge_list_shape ["existing"] ["", " ", "new", "existing", "new"] (by decide),
   by decide⟩

/-! ### C3: monotonicity of the confidence score -/

theorem countP_le_of_imp {p q : String → Bool} :
    ∀ l : List String, (∀ a ∈ l, p a = true → q a = true) → l.countP p ≤ l.countP q := by
  intro l
  induction l with
  | nil => intro _; simp
  | cons x xs ih =>
    intro h
    have ht := ih (fun a ha => h a (List.mem_cons_of_mem x ha))
    by_cases hp : p x = true
    · have hq : q x = true := h x (by simp) hp
      simp only [List.countP_cons, hp, hq, if_true]
      omega
    · have hp' : p x = false := by revert hp; cases p x <;> simp
      simp only [List.countP_cons, hp', Bool.false_eq_true, if_false]
      by_cases hq : q x = true
      · simp only [hq, if_true]
        omega
      · have hq' : q x = false := by revert hq; cases q x <;> simp
        simp only [hq', Bool.false_eq_true, if_false]
        omega

theorem scalarFilled_of_superset {P P' : Profile}
    (h : ∀ k, present P k = true → P' k = P k) :
    ∀ k, scalarFilled P k = true → scalarFilled P' k = true := by
  intro k hk
  have hpres : present P k = true := by
    revert hk
    unfold scalarFilled present
    cases P k with
    | none => simp
    | some c => cases c <;> simp
  have heq := h k hpres
  revert hk
  unfold scalarFilled
  rw [heq]
  exact fun hk => hk

theorem present_of_superset {P P' : Profile}
    (h : ∀ k, present P k = true → P' k = P k) :
    ∀ k, present P k = true → present P' k = true := by
  intro k hk
  have heq := h k hk
  unfold present
  rw [heq]
  exact hk

theorem confScore_monotone (P P' : Profile)
    (h : ∀ k, present P k = true → P' k = P k) : confScore P ≤ confScore P' := by
  unfold confScore
  have h1 := countP_le_of_imp (p := fun k => scalarFilled P k)
    (q := fun k => scalarFilled P' k) coreFields
    (fun a _ ha => scalarFilled_of_superset h a ha)
  have h2 := countP_le_of_imp (p := fun k => scalarFilled P k)
    (q := fun k => scalarFilled P' k) depthFields
    (fun a _ ha => scalarFilled_of_superset h a ha)
  have h3 := countP_le_of_imp (p := fun k => present P k)
    (q := fun k => present P' k) milestoneFields
    (fun a _ ha => present_of_superset h a ha)
  omega

/-- Claim C3: the confidence score is monotone — if a session's profile `P'`
has every present field of `P` with the same value (and possibly more
present fields), then `calcConf` of the second session is at least
`calcConf` of the first. -/
theorem calcConf_monotone (S S' : Session)
    (h : ∀ k, present S.profile k = true → S'.profile k = S.profile k) :
    calcConf S ≤ calcConf S' := by
  unfold calcConf confTotal jsRoundNatDiv
  have hs : confScore S.profile ≤ confScore S'.profile := confScore_monotone _ _ h
  have hdiv : (2 * (confScore S.profile * 100) + 90) / (2 * 90) ≤
      (2 * (confScore S'.profile * 100) + 90) / (2 * 90) := by
    apply Nat.div_le_div_right
    omega
  omega

/-- Witness for `calcConf_monotone`: a profile with only `revenue` present
scores 4, adding `funding` raises the score to 9, and the monotonicity
theorem applies to the pair. -/
theorem calcConf_monotone_witness :
    calcConf ⟨"company", 0, 0, false, false, false, [],
        fun k => if k = "revenue" then some (.scalar "10k") else none⟩ ≤
      calcConf ⟨"company", 0, 0, false, false, false, [],
        fun k => if k = "revenue" then some (.scalar "10k")
          else if k = "funding" then some (.scalar "bootstrapped") else none⟩ ∧
    calcConf ⟨"company", 0, 0, false, false, false, [],
        fun k => if k = "revenue" then some (.scalar "10k") else none⟩ = 4 ∧
    calcConf ⟨"company", 0, 0, false, false, false, [],
        fun k => if k = "revenue" then some (.scalar "10k")
          else if k = "funding" then some (.scalar "bootstrapped") else none⟩ = 9 := by
  refine ⟨calcConf_monotone _ _ (fun k hk => ?_), by decide, by decide⟩
  by_cases hr : k = "revenue"
  · subst hr
    simp
  · exfalso
    simp only [present, hr, if_false] at hk
    exact absurd hk (by decide)

/-! ### C4: the company-phase turn gate and advancement -/

/-- Claim C4: for any session in the `company` phase (checklist
`[businessModel, stage, revenue, teamSize, funding]`, minimum 4 turns) with
all five checklist fields present, the guard is false after 3 in-phase turns
and the phase does not change; after 4 in-phase turns the guard is true and
advancing sets the phase to `gtm` with the in-phase turn counter reset
to 0. -/
theorem company_phase_gate (S : Session) (hp : S.currentPhase = "company")
    (hfill : (["businessModel", "stage", "revenue", "teamSize", "funding"].all
      (fun k => present S.profile k)) = true) :
    (S.phaseTurns = 3 → canAdvancePhase S = false ∧ advanceIfReady S = S) ∧
    (S.phaseTurns = 4 → canAdvancePhase S = true ∧
      (advanceIfReady S).currentPhase = "gtm" ∧ (advanceIfReady S).phaseTurns = 0) := by
  have hph : PHASES S.currentPhase =
      some ⟨"company", some "gtm", 4, ["businessModel", "stage", "revenue", "teamSize", "funding"]⟩ := by
    rw [hp]
    rfl
  constructor
  · intro ht
    have hcan : canAdvancePhase S = false := by
      unfold canAdvancePhase
      rw [hph, ht]
      simp
    refine ⟨hcan, ?_⟩
    unfold advanceIfReady
    rw [hcan]
    simp
  · intro ht
    have hcan : canAdvancePhase S = true := by
      unfold canAdvancePhase
      rw [hph, ht, hp]
      simpa using hfill
    have hdo : (doAdvance S).1 = { S with currentPhase := "gtm", phaseTurns := 0 } := by
      unfold doAdvance
      rw [hph]
    refine ⟨hcan, ?_, ?_⟩ <;>
      simp [advanceIfReady, hcan, hdo]

/-- Witness for `company_phase_gate`: the concrete company session with the
checklist filled exercises both the 3-turn refusal and the 4-turn
advancement. -/
theorem company_phase_gate_witness :
    (canAdvancePhase (companySession 3) = false ∧
      advanceIfReady (companySession 3) = companySession 3) ∧
    (canAdvancePhase (companySession 4) = true ∧
      (advanceIfReady (companySession 4)).currentPhase = "gtm" ∧
      (advanceIfReady (companySession 4)).phaseTurns = 0) :=
  ⟨(company_phase_gate (companySession 3) rfl (by decide)).1 rfl,
   (company_phase_gate (companySession 4) rfl (by decide)).2 rfl⟩

/-! ### C1: canonical identifiers through `resolveStage` -/

/-- Claim C1, evaluation at the failing input: three of the four canonical
stage identifiers resolve to themselves, but `early_scale` resolves to
`seed_startup` — normalization strips the underscore, and the
`seed_startup` alias `"early"` matches `"earlyscale"` in the alias loop
before the canonical passthrough check (source line 53) is reached. -/
theorem resolveStage_canonical_eval :
    resolveStage "pre_seed_idea" = "pre_seed_idea" ∧
    resolveStage "seed_startup" = "seed_startup" ∧
    resolveStage "expansion_enterprise" = "expansion_enterprise" ∧
    resolveStage "early_scale" = "seed_startup" := by
  refine ⟨?_, ?_, ?_, ?_⟩ <;> decide

/-! ### C6: numeric feasibility rules on unparseable source text -/

/-- Claim C6, counterexample: the profile has no team-size text at all, yet the
team-size rule fires — `(p.teamSize || '0')` substitutes the text `'0'`,
which parses to the usable number 0, and `0 <= 5` combined with an outbound
sales motion emits the flag instead of skipping the rule. -/
theorem rule3_fires_without_teamSize :
    outboundNoTeamProfile "teamSize" = none ∧
    (runFeasibilityChecks outboundNoTeamProfile none).any
      (fun f => f.issue == "Outbound/ABM motion with tiny team") = true := by
  constructor
  · rfl
  · decide

/-- Claim C6, amended: the growth-target, revenue and churn rules skip when
their source text yields no usable number, and the team-size comparisons
skip when a present team-size text is non-numeric; when every numeric
source is unparseable in that sense, `runFeasibilityChecks` can only return
the flags of the two non-numeric rules. (A missing/empty team size is the
exception the counterexample exhibits: it defaults to the text `'0'`,
parses as 0, and the small-team rule can still fire.) -/
theorem numeric_rules_skip_unparseable (p : Profile) (sd : Option StageData) :
    (digitsOf (getStr p "growthTarget") = [] → rule1 p = none) ∧
    (digitsOf (getStr p "revenue") = [] → rule4 p = none) ∧
    (getStr p "teamSize" ≠ "" → digitsOf (getStr p "teamSize") = [] →
      rule3 p = none ∧ rule4 p = none) ∧
    (jsParseFloatDigitsDots (getStr p "churnRate") = none → rule6 p = none) ∧
    (digitsOf (getStr p "growthTarget") = [] →
      getStr p "teamSize" ≠ "" → digitsOf (getStr p "teamSize") = [] →
      jsParseFloatDigitsDots (getStr p "churnRate") = none →
      runFeasibilityChecks p sd = (rule2 p sd).toList ++ (rule5 p).toList) := by
  have hr1 : digitsOf (getStr p "growthTarget") = [] → rule1 p = none := by
    intro hd
    unfold rule1
    by_cases hb : (getStr p "budgetLevel" == "limited" && getStr p "growthTarget" != "") = true
    · rw [if_pos hb]
      have hparse : jsParseIntDigits (getStr p "growthTarget") = none := by
        unfold jsParseIntDigits
        simp [hd]
      rw [hparse]
    · rw [if_neg hb]
  have hr4rev : digitsOf (getStr p "revenue") = [] → rule4 p = none := by
    intro hd
    unfold rule4
    by_cases hb : (getStr p "funding" != "" && getStr p "revenue" != "") = true
    · rw [if_pos hb]
      rw [Bool.and_eq_true] at hb
      have hrev : getStr p "revenue" ≠ "" := bne_iff_ne.mp hb.2
      have hor : jsOr (getStr p "revenue") "0" = getStr p "revenue" := by
        unfold jsOr
        rw [if_neg hrev]
      have hparse : jsParseIntDigits (jsOr (getStr p "revenue") "0") = none := by
        rw [hor]
        unfold jsParseIntDigits
        simp [hd]
      rw [hparse]
    · rw [if_neg hb]
  have htn : getStr p "teamSize" ≠ "" → digitsOf (getStr p "teamSize") = [] →
      teamNum p = none := by
    intro hne hd
    unfold teamNum jsOr
    rw [if_neg hne]
    unfold jsParseIntDigits
    simp [hd]
  have hr3 : getStr p "teamSize" ≠ "" → digitsOf (getStr p "teamSize") = [] →
      rule3 p = none := by
    intro hne hd
    unfold rule3
    rw [htn hne hd]
  have hr4team : getStr p "teamSize" ≠ "" → digitsOf (getStr p "teamSize") = [] →
      rule4 p = none := by
    intro hne hd
    unfold rule4
    by_cases hb : (getStr p "funding" != "" && getStr p "revenue" != "") = true
    · rw [if_pos hb, htn hne hd]
      cases jsParseIntDigits (jsOr (getStr p "revenue") "0") <;> rfl
    · rw [if_neg hb]
  have hr6 : jsParseFloatDigitsDots (getStr p "churnRate") = none → rule6 p = none := by
    intro hparse
    unfold rule6
    by_cases hb : (getStr p "churnRate" != "" && getStr p "mainBottleneck" != "") = true
    · rw [if_pos hb]
      rw [Bool.and_eq_true] at hb
      have hch : getStr p "churnRate" ≠ "" := bne_iff_ne.mp hb.1
      have hor : jsOr (getStr p "churnRate") "0" = getStr p "churnRate" := by
        unfold jsOr
        rw [if_neg hch]
      rw [hor, hparse]
    · rw [if_neg hb]
  refine ⟨hr1, hr4rev, fun hne hd => ⟨hr3 hne hd, hr4team hne hd⟩, hr6, ?_⟩
  intro h1 h3a h3b h4
  unfold runFeasibilityChecks
  rw [hr1 h1, hr3 h3a h3b, hr4team h3a h3b, hr6 h4]
  simp

/-- Witness for `numeric_rules_skip_unparseable` at the concrete profile
whose numeric fields are all non-numeric text: the numeric rules skip and
the only flag produced comes from the non-numeric founder-bottleneck
rule. -/
theorem numeric_rules_skip_unparseable_witness :
    digitsOf (getStr nonNumericProfile "growthTarget") = [] ∧
    getStr nonNumericProfile "teamSize" ≠ "" ∧
    digitsOf (getStr nonNumericProfile "teamSize") = [] ∧
    jsParseFloatDigitsDots (getStr nonNumericProfile "churnRate") = none ∧
    rule1 nonNumericProfile = none ∧
    runFeasibilityChecks nonNumericProfile none =
      (rule2 nonNumericProfile none).toList ++ (rule5 nonNumericProfile).toList ∧
    (runFeasibilityChecks nonNumericProfile none).map (fun f => f.issue) =
      ["Founder bottleneck blocks scaling"] :=
  ⟨by decide, by decide, by decide, by decide,
   (numeric_rules_skip_unparseable nonNumericProfile none).1 (by decide),
   (numeric_rules_skip_unparseable nonNumericProfile none).2.2.2.2
     (by decide) (by decide) (by decide) (by decide),
   by decide⟩

/-! ### C7: the cash-runway scenario -/

/-- Claim C7: for the profile `{funding: "bootstrapped", revenue: "€2,000",
teamSize: "8"}` the guardrail returns a `risk` flag with issue
"Cash runway concern"; with `teamSize: "2"` it does not. -/
theorem cash_runway_scenario :
    (runFeasibilityChecks (runwayProfile "8") none).any
      (fun f => f.type == "risk" && f.issue == "Cash runway concern") = true ∧
    (runFeasibilityChecks (runwayProfile "2") none).any
      (fun f => f.type == "risk" && f.issue == "Cash runway concern") = false := by
  constructor
  · decide
  · decide

/-! ### C8: scorecard normalization -/

theorem jsRound_eq_floor (q : ℚ) : jsRound q = ⌊q + 1 / 2⌋ := by
  have hden : ((q.den : ℚ)) ≠ 0 := Nat.cast_ne_zero.mpr q.den_nz
  have h2 : q + 1 / 2 = ((2 * q.num + (q.den : ℤ) : ℤ) : ℚ) / ((2 * q.den : ℕ) : ℚ) := by
    conv_lhs => rw [← Rat.num_div_den q]
    push_cast
    field_simp
    ring
  rw [h2, Rat.floor_intCast_div_natCast]
  unfold jsRound
  push_cast
  norm_cast

theorem jsRound_bounds {q : ℚ} (h0 : 0 < q) (h1 : q < 100) :
    0 ≤ jsRound q ∧ jsRound q ≤ 100 := by
  rw [jsRound_eq_floor]
  constructor
  · exact Int.floor_nonneg.mpr (by linarith)
  · have hlt : ⌊q + 1 / 2⌋ < (101 : ℤ) := Int.floor_lt.mpr (by push_cast; linarith)
    omega

theorem clamp100_bounds (z : ℤ) : 0 ≤ clamp100 z ∧ clamp100 z ≤ 100 := by
  unfold clamp100
  omega

theorem clamp100_of_bounds {z : ℤ} (h0 : 0 ≤ z) (h1 : z ≤ 100) : clamp100 z = z := by
  unfold clamp100
  omega

theorem healthScore_eq_clamp (lb : Bool) (g b v : ℚ) :
    healthScore lb g b v = clamp100 (normForBar lb g b v) := rfl

theorem normForBar_bounds (lb : Bool) (g b v : ℚ) :
    0 ≤ normForBar lb g b v ∧ normForBar lb g b v ≤ 100 := by
  cases lb with
  | false =>
    simp only [normForBar, Bool.false_eq_true, if_false]
    split_ifs with h1 h2
    · norm_num
    · norm_num
    · have hb : b < v := not_le.mp h2
      have hg : v < g := not_le.mp h1
      have hgb : (0 : ℚ) < g - b := by linarith
      refine jsRound_bounds (div_pos (by linarith) hgb) ?_
      rw [div_lt_iff₀ hgb]
      linarith
  | true =>
    simp only [normForBar, if_true]
    split_ifs with h1 h2
    · norm_num
    · norm_num
    · have hg : g < v := not_le.mp h1
      have hb : v < b := not_le.mp h2
      have hbg : (0 : ℚ) < b - g := by linarith
      refine jsRound_bounds (div_pos (by linarith) hbg) ?_
      rw [div_lt_iff₀ hbg]
      linarith

/-- Claim C8: for any direction and any good/bad references with the good
reference strictly better than the bad one (direction-aware), the bar/radar
normalization returns 100 at or beyond "good", 0 at or beyond "bad",
the rounded linear interpolation strictly in between, and always lies in
`[0, 100]`; the dashboard `healthScore` (the same computation, clamped)
agrees. -/
theorem normalization_spec (lowerBetter : Bool) (goodVal badVal val : ℚ)
    (hord : if lowerBetter then goodVal < badVal else badVal < goodVal) :
    ((if lowerBetter then val ≤ goodVal else goodVal ≤ val) →
      normForBar lowerBetter goodVal badVal val = 100 ∧
      healthScore lowerBetter goodVal badVal val = 100) ∧
    ((if lowerBetter then badVal ≤ val else val ≤ badVal) →
      normForBar lowerBetter goodVal badVal val = 0 ∧
      healthScore lowerBetter goodVal badVal val = 0) ∧
    ((if lowerBetter then goodVal < val ∧ val < badVal else badVal < val ∧ val < goodVal) →
      normForBar lowerBetter goodVal badVal val =
        (if lowerBetter then jsRound (100 * (badVal - val) / (badVal - goodVal))
          else jsRound (100 * (val - badVal) / (goodVal - badVal))) ∧
      healthScore lowerBetter goodVal badVal val = normForBar lowerBetter goodVal badVal val) ∧
    (0 ≤ normForBar lowerBetter goodVal badVal val ∧
      normForBar lowerBetter goodVal badVal val ≤ 100 ∧
      0 ≤ healthScore lowerBetter goodVal badVal val ∧
      healthScore lowerBetter goodVal badVal val ≤ 100) := by
  have hbounds := normForBar_bounds lowerBetter goodVal badVal val
  have hclamp := clamp100_bounds (normForBar lowerBetter goodVal badVal val)
  cases lowerBetter with
  | false =>
    simp only [Bool.false_eq_true, if_false] at hord ⊢
    refine ⟨?_, ?_, ?_, ?_⟩
    · intro h
      have hn : normForBar false goodVal badVal val = 100 := by
        simp [normForBar, h]
      exact ⟨hn, by rw [healthScore_eq_clamp, hn]; decide⟩
    · intro h
      have hng : ¬(goodVal ≤ val) := not_le.mpr (by linarith)
      have hn : normForBar false goodVal badVal val = 0 := by
        simp [normForBar, hng, h]
      exact ⟨hn, by rw [healthScore_eq_clamp, hn]; decide⟩
    · rintro ⟨hbv, hvg⟩
      have hn : normForBar false goodVal badVal val =
          jsRound (100 * (val - badVal) / (goodVal - badVal)) := by
        simp [normForBar, not_le.mpr hvg, not_le.mpr hbv]
      exact ⟨hn, by
        rw [healthScore_eq_clamp, clamp100_of_bounds hbounds.1 hbounds.2]⟩
    · exact ⟨hbounds.1, hbounds.2, by rw [healthScore_eq_clamp]; exact hclamp.1,
        by rw [healthScore_eq_clamp]; exact hclamp.2⟩
  | true =>
    simp only [if_true] at hord ⊢
    refine ⟨?_, ?_, ?_, ?_⟩
    · intro h
      have hn : normForBar true goodVal badVal val = 100 := by
        simp [normForBar, h]
      exact ⟨hn, by rw [healthScore_eq_clamp, hn]; decide⟩
    · intro h
      have hng : ¬(val ≤ goodVal) := not_le.mpr (by linarith)
      have hn : normForBar true goodVal badVal val = 0 := by
        simp [normForBar, hng, h]
      exact ⟨hn, by rw [healthScore_eq_clamp, hn]; decide⟩
    · rintro ⟨hgv, hvb⟩
      have hn : normForBar true goodVal badVal val =
          jsRound (100 * (badVal - val) / (badVal - goodVal)) := by
        simp [normForBar, not_le.mpr hgv, not_le.mpr hvb]
      exact ⟨hn, by
        rw [healthScore_eq_clamp, clamp100_of_bounds hbounds.1 hbounds.2]⟩
    · exact ⟨hbounds.1, hbounds.2, by rw [healthScore_eq_clamp]; exact hclamp.1,
        by rw [healthScore_eq_clamp]; exact hclamp.2⟩

/-- Witness for `normalization_spec` with `lowerBetter`, good 3, bad 10:
value 3 scores 100, value 10 scores 0, and value 5 (strictly between) is
the rounded interpolation, within bounds. -/
theorem normalization_spec_witness :
    (if (true : Bool) then (3 : ℚ) < 10 else (10 : ℚ) < 3) ∧
    (normForBar true 3 10 3 = 100 ∧ healthScore true 3 10 3 = 100) ∧
    (normForBar true 3 10 10 = 0 ∧ healthScore true 3 10 10 = 0) ∧
    normForBar true 3 10 5 = jsRound (100 * ((10 : ℚ) - 5) / (10 - 3)) ∧
    (0 ≤ normForBar true 3 10 5 ∧ normForBar true 3 10 5 ≤ 100) :=
  ⟨by decide,
   (normalization_spec true 3 10 3 (by decide)).1 (by decide),
   (normalization_spec true 3 10 10 (by decide)).2.1 (by decide),
   ((normalization_spec true 3 10 5 (by decide)).2.2.1 ⟨by decide, by decide⟩).1,
   ⟨((normalization_spec true 3 10 5 (by decide)).2.2.2).1,
    ((normalization_spec true 3 10 5 (by decide)).2.2.2).2.1⟩⟩

/-! ### C9: option sanitizing -/

theorem jsSlice_length_le (s : String) (n : Nat) : (jsSlice s n).length ≤ n := by
  show (s.toList.take n).length ≤ n
  simp [List.length_take]

theorem getDefaults_spec (S : Session) :
    2 ≤ (getDefaults S).length ∧ (getDefaults S).length ≤ 6 ∧
      ∀ o ∈ getDefaults S, o.key.length ≤ 80 ∧ o.label.length ≤ 120 := by
  unfold getDefaults
  split_ifs <;> exact ⟨by decide, by decide, by decide⟩

theorem validOpt_bounds {r : RawOpt} {o : OptionItem} (h : validOpt r = some o) :
    o.key.length ≤ 80 ∧ o.label.length ≤ 120 := by
  rcases r with _ | ⟨_ | k, lb⟩
  · exact absurd h (by simp [validOpt])
  · exact absurd h (by simp [validOpt])
  · rcases lb with _ | lb
    · exact absurd h (by simp [validOpt])
    · by_cases hc : (0 < k.length && 0 < lb.length : Bool)
      · have hv : validOpt (some (some k, some lb)) =
            some ⟨jsSlice k 80, jsSlice lb 120⟩ := by
          simp [validOpt, hc]
        rw [hv] at h
        cases Option.some.inj h
        exact ⟨jsSlice_length_le k 80, jsSlice_length_le lb 120⟩
      · have hv : validOpt (some (some k, some lb)) = none := by
          simp only [validOpt]
          rw [if_neg hc]
        rw [hv] at h
        cases h

/-- Claim C9: `sanitizeOptions` always returns between 2 and 6 options whose
key/label lengths are clipped to 80/120 characters, and whenever the raw
list is missing (not an array), empty, or has fewer than 2 valid entries
after filtering, the result is exactly the phase's default option set. -/
theorem sanitizeOptions_spec (raw : Option (List RawOpt)) (S : Session) :
    (2 ≤ (sanitizeOptions raw S).length ∧ (sanitizeOptions raw S).length ≤ 6 ∧
      ∀ o ∈ sanitizeOptions raw S, o.key.length ≤ 80 ∧ o.label.length ≤ 120) ∧
    ((match raw with
      | none => 0
      | some l => (l.filterMap validOpt).length) < 2 →
      sanitizeOptions raw S = getDefaults S) := by
  have hdef := getDefaults_spec S
  constructor
  · cases raw with
    | none => exact hdef
    | some l =>
      simp only [sanitizeOptions]
      by_cases he : l.isEmpty
      · rw [if_pos he]
        exact hdef
      · rw [if_neg he]
        by_cases hv : 2 ≤ ((l.filterMap validOpt).take 6).length
        · rw [if_pos hv]
          refine ⟨hv, ?_, ?_⟩
          · rw [List.length_take]
            exact min_le_left 6 _
          · intro o ho
            have ho' : o ∈ l.filterMap validOpt := List.mem_of_mem_take ho
            obtain ⟨r, _, hr⟩ := List.mem_filterMap.mp ho'
            exact validOpt_bounds hr
        · rw [if_neg hv]
          exact hdef
  · intro hlt
    cases raw with
    | none => rfl
    | some l =>
      have hlt' : (l.filterMap validOpt).length < 2 := hlt
      simp only [sanitizeOptions]
      by_cases he : l.isEmpty
      · rw [if_pos he]
      · rw [if_neg he]
        have hv : ¬(2 ≤ ((l.filterMap validOpt).take 6).length) := by
          rw [List.length_take]
          omega
        rw [if_neg hv]

/-- Witness for `sanitizeOptions_spec`: a raw list with a single valid entry
(the rest null, non-string, or empty-keyed) is replaced entirely by the
current phase's default option set. -/
theorem sanitizeOptions_spec_witness :
    (match (some [some (some "ok", some "Looks good"), none, some (none, some "x"),
        some (some "", some "y")] : Option (List RawOpt)) with
      | none => 0
      | some l => (l.filterMap validOpt).length) < 2 ∧
    sanitizeOptions
        (some [some (some "ok", some "Looks good"), none, some (none, some "x"),
          some (some "", some "y")])
        ⟨"gtm", 0, 0, false, false, false, [], fun _ => none⟩ =
      getDefaults ⟨"gtm", 0, 0, false, false, false, [], fun _ => none⟩ ∧
    sanitizeOptions
        (some [some (some "ok", some "Looks good"), none, some (none, some "x"),
          some (some "", some "y")])
        ⟨"gtm", 0, 0, false, false, false, [], fun _ => none⟩ =
      [⟨"continue", "Continue →"⟩, ⟨"explain", "Let me explain in detail"⟩] :=
  ⟨by decide,
   (sanitizeOptions_spec
      (some [some (some "ok", some "Looks good"), none, some (none, some "x"),
        some (some "", some "y")])
      ⟨"gtm", 0, 0, false, false, false, [], fun _ => none⟩).2 (by decide),
   by decide⟩

/-! ### C10: shape of the chart data -/

theorem chartBuild_lengths (bms : List (String × BmEntry)) :
    ∀ ms : List MetricDef,
      (chartBuild bms ms).1.labels.length = ms.countP (hasMedian bms) ∧
      (chartBuild bms ms).1.user.length = ms.countP (hasMedian bms) ∧
      (chartBuild bms ms).1.median.length = ms.countP (hasMedian bms) ∧
      (chartBuild bms ms).1.good.length = ms.countP (hasMedian bms) ∧
      (chartBuild bms ms).1.units.length = ms.countP (hasMedian bms) ∧
      (chartBuild bms ms).1.rawUser.length = ms.countP (hasMedian bms) ∧
      (chartBuild bms ms).1.rawMedian.length = ms.countP (hasMedian bms) := by
  intro ms
  induction ms with
  | nil => exact ⟨rfl, rfl, rfl, rfl, rfl, rfl, rfl⟩
  | cons m rest ih =>
    cases hl : List.lookup m.key bms with
    | none =>
      have hm : hasMedian bms m = false := by simp [hasMedian, hl]
      simp only [chartBuild, hl, List.countP_cons, hm, Bool.false_eq_true, if_false,
        Nat.add_zero]
      exact ih
    | some e =>
      cases hme : e.median with
      | none =>
        have hm : hasMedian bms m = false := by simp [hasMedian, hl, hme]
        simp only [chartBuild, hl, hme, List.countP_cons, hm, Bool.false_eq_true, if_false,
          Nat.add_zero]
        exact ih
      | some med =>
        have hm : hasMedian bms m = true := by simp [hasMedian, hl, hme]
        simp only [chartBuild, hl, hme, List.countP_cons, hm, if_true]
        cases hu : jsNumVal m.userField <;>
          simp only [List.length_cons] <;>
          exact ⟨congrArg Nat.succ ih.1, congrArg Nat.succ ih.2.1,
            congrArg Nat.succ ih.2.2.1, congrArg Nat.succ ih.2.2.2.1,
            congrArg Nat.succ ih.2.2.2.2.1, congrArg Nat.succ ih.2.2.2.2.2.1,
            congrArg Nat.succ ih.2.2.2.2.2.2⟩

/-- Claim C10: when `buildChartData` returns a non-null result, every bar
dataset (labels, user, median, good, units, rawUser, rawMedian) has exactly
one entry per tracked metric with a configured median — all seven lengths
are equal and positive — and when no tracked metric has a configured median
the function returns null rather than an empty structure. -/
theorem buildChartData_shape (p : Profile) (st : StageData)
    (bms : List (String × BmEntry)) (hb : st.benchmarks = some bms) :
    (∀ cd, buildChartData p (some st) = some cd →
      0 < (metricDefs p).countP (hasMedian bms) ∧
      cd.bar.labels.length = (metricDefs p).countP (hasMedian bms) ∧
      cd.bar.user.length = cd.bar.labels.length ∧
      cd.bar.median.length = cd.bar.labels.length ∧
      cd.bar.good.length = cd.bar.labels.length ∧
      cd.bar.units.length = cd.bar.labels.length ∧
      cd.bar.rawUser.length = cd.bar.labels.length ∧
      cd.bar.rawMedian.length = cd.bar.labels.length) ∧
    ((metricDefs p).countP (hasMedian bms) = 0 → buildChartData p (some st) = none) := by
  have hlen := chartBuild_lengths bms (metricDefs p)
  constructor
  · intro cd hcd
    simp only [buildChartData] at hcd
    rw [hb] at hcd
    have hcd2 : (if (chartBuild bms (metricDefs p)).1.labels.isEmpty then none
        else some (⟨st.label, (chartBuild bms (metricDefs p)).2,
          (chartBuild bms (metricDefs p)).1⟩ : ChartData)) = some cd := hcd
    by_cases hemp : (chartBuild bms (metricDefs p)).1.labels.isEmpty
    · rw [if_pos hemp] at hcd2
      cases hcd2
    · rw [if_neg hemp] at hcd2
      have hcd' : cd = ⟨st.label, (chartBuild bms (metricDefs p)).2,
          (chartBuild bms (metricDefs p)).1⟩ := (Option.some.inj hcd2).symm
      subst hcd'
      have hne : (chartBuild bms (metricDefs p)).1.labels.length ≠ 0 := by
        intro h0
        exact hemp (List.isEmpty_iff_length_eq_zero.mpr h0)
      dsimp only
      refine ⟨?_, hlen.1, ?_, ?_, ?_, ?_, ?_, ?_⟩ <;> omega
  · intro h0
    simp only [buildChartData]
    rw [hb]
    show (if (chartBuild bms (metricDefs p)).1.labels.isEmpty then none
        else some (⟨st.label, (chartBuild bms (metricDefs p)).2,
          (chartBuild bms (metricDefs p)).1⟩ : ChartData)) = none
    have hemp : (chartBuild bms (metricDefs p)).1.labels.isEmpty = true := by
      refine List.isEmpty_iff_length_eq_zero.mpr ?_
      omega
    rw [if_pos hemp]

/-- Witness for `buildChartData_shape`: a one-metric benchmark table (LTV,
median 100 = good, bad 10) with no user data yields a chart whose bar
arrays all have length one, and an empty benchmark table yields null. -/
theorem buildChartData_shape_witness :
    buildChartData (fun _ => none)
        (some ⟨"Seed Startup", none, some [("ltv", ⟨some (100 : ℚ), some 100, some 10⟩)]⟩) =
      some ⟨"Seed Startup", ⟨[], [], [], []⟩,
        ⟨["LTV"], [none], [some 100], [100], ["€"], [none], [100]⟩⟩ ∧
    (⟨"Seed Startup", ⟨[], [], [], []⟩,
        ⟨["LTV"], [none], [some 100], [100], ["€"], [none], [100]⟩⟩ : ChartData).bar.labels.length =
      (metricDefs (fun _ => none)).countP
        (hasMedian [("ltv", ⟨some (100 : ℚ), some 100, some 10⟩)]) ∧
    buildChartData (fun _ => none) (some ⟨"Empty", none, some []⟩) = none :=
  ⟨by decide,
   ((buildChartData_shape (fun _ => none)
      ⟨"Seed Startup", none, some [("ltv", ⟨some (100 : ℚ), some 100, some 10⟩)]⟩
      [("ltv", ⟨some (100 : ℚ), some 100, some 10⟩)] rfl).1
      ⟨"Seed Startup", ⟨[], [], [], []⟩,
        ⟨["LTV"], [none], [some 100], [100], ["€"], [none], [100]⟩⟩ (by decide)).2.1,
   (buildChartData_shape (fun _ => none) ⟨"Empty", none, some []⟩ [] rfl).2 (by decide)⟩

end Panoramica
